import Mathlib

/-!
Verification of the offline-first sync/queue subsystem of the
poleshift client (operation queue, sync engine, upload queue,
auth/session cache) against its natural-language specification.

The TypeScript sources are shallowly embedded as pure Lean functions.
Stateful collaborators (the IndexedDB-backed local store, the remote
Supabase service, the upload-queue persistence helpers and
`BaseService.handleError`) are not part of the source corpus; they are
modelled from the specification, each such definition carries a doc
comment saying so.  Remote behaviour is abstracted as an environment
record of response functions, and each operation additionally returns a
trace of the remote calls it made, so that claims about "zero remote
calls" or "which bucket was consulted" are statable.
-/

/-! ## Data model: pending operations (spec section 3, `types`) -/

/-- The three operation kinds of `PendingOperation.type`. -/
inductive OpType
  | create
  | update
  | delete
deriving DecidableEq

/-- A record payload carried by an operation: an object with at least an
`id` (used by update/delete) plus opaque content, abstracted to one field. -/
structure Row where
  id : Nat
  val : Nat
deriving DecidableEq

/-- `PendingOperation` from `types`: id, type, table, data, timestamp,
retryCount.  Opaque uuids are modelled as naturals drawn from a fresh
counter, timestamps as naturals drawn from a clock. -/
structure PendingOperation where
  id : Nat
  type : OpType
  table : String
  data : Row
  timestamp : Nat
  retryCount : Nat
deriving DecidableEq

/-- The argument of `OperationQueue.enqueue`: an operation missing
id/timestamp/retryCount (`Omit<PendingOperation, ...>`). -/
structure OpIntent where
  type : OpType
  table : String
  data : Row
deriving DecidableEq

/-! ## Local store: the pending-operations region (modelled) -/

/-- Modelled from the spec: `IndexedDBStorage.addPendingOperation`
(`lib/storage/IndexedDB.ts` is not in the corpus).  The store persists the
operation; the pending region is a list in insertion order. -/
def addPendingOperation (q : List PendingOperation) (op : PendingOperation) :
    List PendingOperation :=
  q ++ [op]

/-- Insert an operation into a timestamp-sorted list, before the first
entry with a later-or-equal timestamp. -/
def insertByTimestamp (op : PendingOperation) :
    List PendingOperation → List PendingOperation
  | [] => [op]
  | o :: rest =>
    if op.timestamp ≤ o.timestamp then op :: o :: rest
    else o :: insertByTimestamp op rest

/-- Modelled from the spec: `IndexedDBStorage.getPendingOperationsOrderedByTimestamp`
(`lib/storage/IndexedDB.ts` is not in the corpus).  Returns the pending
operations in ascending `timestamp` order (spec section 3: operations are
replayed in ascending timestamp order). -/
def getPendingOperationsOrderedByTimestamp (q : List PendingOperation) :
    List PendingOperation :=
  q.foldr insertByTimestamp []

/-- Modelled from the spec: `IndexedDBStorage.deletePendingOperation`
(`lib/storage/IndexedDB.ts` is not in the corpus).  Deletes the operation
with the given id; spec section 4.1: idempotent if already absent. -/
def deletePendingOperation (q : List PendingOperation) (i : Nat) :
    List PendingOperation :=
  q.filter (fun op => decide (op.id ≠ i))

/-! ## OperationQueue (`lib/sync/OperationQueue.ts`) -/

/-- The state threaded through `OperationQueue` runs: the persisted pending
region plus the uuid source and the clock (`uuidv4()` is modelled as a
fresh counter, `Date.now()` as a clock that advances between calls). -/
structure QueueState where
  pending : List PendingOperation
  nextId : Nat
  now : Nat
deriving DecidableEq

/-- The `queuedOperation` record built by `OperationQueue.enqueue`:
`{ id: uuidv4(), ...operation, timestamp: Date.now(), retryCount: 0 }`. -/
def freshOperation (s : QueueState) (intent : OpIntent) : PendingOperation :=
  { id := s.nextId
    type := intent.type
    table := intent.table
    data := intent.data
    timestamp := s.now
    retryCount := 0 }

/-- `OperationQueue.enqueue`: builds the queued operation and persists it
via `addPendingOperation`. -/
def OperationQueue.enqueue (s : QueueState) (intent : OpIntent) : QueueState :=
  { pending := addPendingOperation s.pending (freshOperation s intent)
    nextId := s.nextId + 1
    now := s.now + 1 }

/-- `OperationQueue.dequeue`: reads the operations ordered by timestamp and
returns the first one, or null when there are none
(`operations.length > 0 ? operations[0] : null`). -/
def OperationQueue.dequeue (s : QueueState) : Option PendingOperation :=
  match getPendingOperationsOrderedByTimestamp s.pending with
  | [] => none
  | o :: _ => some o

/-- `OperationQueue.remove`: deletes the operation with the given id via
`deletePendingOperation`. -/
def OperationQueue.remove (s : QueueState) (i : Nat) : QueueState :=
  { s with pending := deletePendingOperation s.pending i }

/-- `OperationQueue.shouldRetry`: `retryCount < MAX_RETRIES` with
`MAX_RETRIES = 3`. -/
def OperationQueue.shouldRetry (op : PendingOperation) : Bool :=
  decide (op.retryCount < 3)

/-- A client call against the operation queue, for whole-run statements. -/
inductive QueueEvent
  | enq (intent : OpIntent)
  | rem (i : Nat)
deriving DecidableEq

/-- One client call applied to the queue state. -/
def stepQueue (s : QueueState) : QueueEvent → QueueState
  | QueueEvent.enq intent => OperationQueue.enqueue s intent
  | QueueEvent.rem i => OperationQueue.remove s i

/-- A sequence of client calls applied in order. -/
def runQueue (s : QueueState) : List QueueEvent → QueueState
  | [] => s
  | e :: rest => runQueue (stepQueue s e) rest

/-- The empty initial state: nothing pending, counter and clock at zero. -/
def initialQueueState : QueueState :=
  { pending := [], nextId := 0, now := 0 }

/-! ## Sorting lemmas for the ordered read -/

theorem mem_insertByTimestamp (a op : PendingOperation)
    (l : List PendingOperation) :
    a ∈ insertByTimestamp op l ↔ a = op ∨ a ∈ l := by
  induction l with
  | nil => simp [insertByTimestamp]
  | cons o rest ih =>
    by_cases h : op.timestamp ≤ o.timestamp
    · simp [insertByTimestamp, h]
    · simp only [insertByTimestamp, if_neg h, List.mem_cons, ih]
      tauto

theorem mem_ordered (a : PendingOperation) (q : List PendingOperation) :
    a ∈ getPendingOperationsOrderedByTimestamp q ↔ a ∈ q := by
  induction q with
  | nil => simp [getPendingOperationsOrderedByTimestamp]
  | cons o rest ih =>
    simp only [getPendingOperationsOrderedByTimestamp, List.foldr_cons]
    rw [mem_insertByTimestamp]
    simp only [getPendingOperationsOrderedByTimestamp] at ih
    rw [ih, List.mem_cons]

theorem pairwise_insertByTimestamp (op : PendingOperation)
    (l : List PendingOperation)
    (h : List.Pairwise (fun a b => a.timestamp ≤ b.timestamp) l) :
    List.Pairwise (fun a b => a.timestamp ≤ b.timestamp)
      (insertByTimestamp op l) := by
  induction l with
  | nil => simp [insertByTimestamp]
  | cons o rest ih =>
    rcases List.pairwise_cons.mp h with ⟨ho, hrest⟩
    by_cases hle : op.timestamp ≤ o.timestamp
    · rw [insertByTimestamp, if_pos hle]
      refine List.pairwise_cons.mpr ⟨?_, h⟩
      intro b hb
      rcases List.mem_cons.mp hb with hb | hb
      · exact hb ▸ hle
      · exact le_trans hle (ho b hb)
    · rw [insertByTimestamp, if_neg hle]
      refine List.pairwise_cons.mpr ⟨?_, ih hrest⟩
      intro b hb
      rcases (mem_insertByTimestamp b op rest).mp hb with hb | hb
      · exact hb ▸ le_of_not_le hle
      · exact ho b hb

theorem pairwise_ordered (q : List PendingOperation) :
    List.Pairwise (fun a b => a.timestamp ≤ b.timestamp)
      (getPendingOperationsOrderedByTimestamp q) := by
  induction q with
  | nil => simp [getPendingOperationsOrderedByTimestamp]
  | cons o rest ih =>
    exact pairwise_insertByTimestamp o _ ih

theorem ordered_eq_nil_iff (q : List PendingOperation) :
    getPendingOperationsOrderedByTimestamp q = [] ↔ q = [] := by
  constructor
  · intro h
    cases q with
    | nil => rfl
    | cons o rest =>
      exfalso
      have ho : o ∈ getPendingOperationsOrderedByTimestamp (o :: rest) :=
        (mem_ordered o (o :: rest)).mpr (List.mem_cons_self o rest)
      rw [h] at ho
      exact List.not_mem_nil o ho
  · intro h
    rw [h]
    rfl

/-! ## Run invariant: ids are fresh, timestamps strictly increase -/

/-- Invariant of every reachable queue state: every pending id is below the
uuid counter, every pending timestamp is below the clock, and pending
timestamps strictly increase in insertion order. -/
def QueueInv (s : QueueState) : Prop :=
  (∀ op ∈ s.pending, op.id < s.nextId ∧ op.timestamp < s.now)
  ∧ List.Pairwise (fun a b => a.timestamp < b.timestamp) s.pending

theorem queueInv_initial : QueueInv initialQueueState := by
  constructor
  · intro op hop
    exact absurd hop (List.not_mem_nil op)
  · exact List.Pairwise.nil

theorem queueInv_step (s : QueueState) (e : QueueEvent) (h : QueueInv s) :
    QueueInv (stepQueue s e) := by
  rcases h with ⟨hbound, hpair⟩
  cases e with
  | enq intent =>
    constructor
    · intro op hop
      rcases List.mem_append.mp hop with hop | hop
      · rcases hbound op hop with ⟨h1, h2⟩
        exact ⟨Nat.lt_succ_of_lt h1, Nat.lt_succ_of_lt h2⟩
      · rcases List.mem_singleton.mp hop with rfl
        exact ⟨Nat.lt_succ_self _, Nat.lt_succ_self _⟩
    · rw [stepQueue, OperationQueue.enqueue]
      simp only [addPendingOperation]
      rw [List.pairwise_append]
      refine ⟨hpair, List.pairwise_singleton _ _, ?_⟩
      intro a ha b hb
      rcases List.mem_singleton.mp hb with rfl
      exact (hbound a ha).2
  | rem i =>
    constructor
    · intro op hop
      have hop' : op ∈ s.pending := List.mem_of_mem_filter hop
      exact hbound op hop'
    · exact List.Pairwise.sublist (List.filter_sublist s.pending) hpair

theorem queueInv_run (evs : List QueueEvent) (s : QueueState)
    (h : QueueInv s) : QueueInv (runQueue s evs) := by
  induction evs generalizing s with
  | nil => exact h
  | cons e rest ih => exact ih (stepQueue s e) (queueInv_step s e h)

theorem pairwise_lt_timestamp_inj (l : List PendingOperation)
    (h : List.Pairwise (fun a b => a.timestamp < b.timestamp) l)
    (a b : PendingOperation) (ha : a ∈ l) (hb : b ∈ l)
    (hts : a.timestamp = b.timestamp) : a = b := by
  induction l with
  | nil => exact absurd ha (List.not_mem_nil a)
  | cons x xs ih =>
    rcases List.pairwise_cons.mp h with ⟨hx, hxs⟩
    rcases List.mem_cons.mp ha with ha1 | ha2
    · rcases List.mem_cons.mp hb with hb1 | hb2
      · rw [ha1, hb1]
      · exfalso
        have hlt := hx b hb2
        rw [ha1] at hts
        omega
    · rcases List.mem_cons.mp hb with hb1 | hb2
      · exfalso
        have hlt := hx a ha2
        rw [hb1] at hts
        omega
      · exact ih hxs ha2 hb2

/-! ## Claim C2: dequeue returns the unique earliest pending operation -/

/-- Claim C2: starting from the empty queue, after any sequence of
enqueue/remove calls, `dequeue` returns `none` exactly when nothing is
pending, and otherwise returns the pending operation with the smallest
timestamp (unique, since clock readings strictly increase between
enqueues); `enqueue` stores an operation carrying a fresh id not present
in the queue, the current clock reading as timestamp, and retryCount 0. -/
theorem operation_queue_contract (evs : List QueueEvent) (intent : OpIntent) :
    (OperationQueue.dequeue (runQueue initialQueueState evs) = none
      ↔ (runQueue initialQueueState evs).pending = [])
    ∧ (∀ op, OperationQueue.dequeue (runQueue initialQueueState evs) = some op →
        op ∈ (runQueue initialQueueState evs).pending
        ∧ (∀ op' ∈ (runQueue initialQueueState evs).pending,
            op.timestamp ≤ op'.timestamp)
        ∧ (∀ op' ∈ (runQueue initialQueueState evs).pending,
            op'.timestamp = op.timestamp → op' = op))
    ∧ (freshOperation (runQueue initialQueueState evs) intent).id
        ∉ (runQueue initialQueueState evs).pending.map PendingOperation.id
    ∧ (freshOperation (runQueue initialQueueState evs) intent).timestamp
        = (runQueue initialQueueState evs).now
    ∧ (freshOperation (runQueue initialQueueState evs) intent).retryCount = 0
    ∧ (OperationQueue.enqueue (runQueue initialQueueState evs) intent).pending
        = addPendingOperation (runQueue initialQueueState evs).pending
            (freshOperation (runQueue initialQueueState evs) intent) := by
  have hinv : QueueInv (runQueue initialQueueState evs) :=
    queueInv_run evs initialQueueState queueInv_initial
  rcases hinv with ⟨hbound, hpair⟩
  refine ⟨?_, ?_, ?_, rfl, rfl, rfl⟩
  · rw [OperationQueue.dequeue]
    cases hord : getPendingOperationsOrderedByTimestamp
        (runQueue initialQueueState evs).pending with
    | nil =>
      simp only [true_iff]
      exact (ordered_eq_nil_iff _).mp hord
    | cons o rest =>
      constructor
      · intro hcontra
        exact absurd hcontra (Option.some_ne_none o)
      · intro hnil
        rw [hnil] at hord
        exact absurd hord.symm (List.cons_ne_nil o rest)
  · intro op hop
    rw [OperationQueue.dequeue] at hop
    cases hord : getPendingOperationsOrderedByTimestamp
        (runQueue initialQueueState evs).pending with
    | nil =>
      rw [hord] at hop
      exact absurd hop (Option.noConfusion)
    | cons o rest =>
      rw [hord] at hop
      have hoeq : o = op := Option.some.inj hop
      subst hoeq
      have hmem : o ∈ (runQueue initialQueueState evs).pending := by
        rw [← mem_ordered o, hord]
        exact List.mem_cons_self o rest
      have hmin : ∀ op' ∈ (runQueue initialQueueState evs).pending,
          o.timestamp ≤ op'.timestamp := by
        intro op' hop'
        have : op' ∈ getPendingOperationsOrderedByTimestamp
            (runQueue initialQueueState evs).pending :=
          (mem_ordered op' _).mpr hop'
        rw [hord] at this
        rcases List.mem_cons.mp this with rfl | hrest
        · exact le_refl _
        · have hp := pairwise_ordered (runQueue initialQueueState evs).pending
          rw [hord] at hp
          exact (List.pairwise_cons.mp hp).1 op' hrest
      refine ⟨hmem, hmin, ?_⟩
      intro op' hop' hts
      exact pairwise_lt_timestamp_inj _ hpair op' o hop' hmem hts
  · intro hmem
    rcases List.mem_map.mp hmem with ⟨op, hop, hid⟩
    have := (hbound op hop).1
    rw [freshOperation] at hid
    simp only at hid
    omega

/-- Concrete operations and events for the queue witnesses. -/
def demoIntent1 : OpIntent :=
  { type := OpType.create, table := "x", data := { id := 1, val := 0 } }

def demoIntent2 : OpIntent :=
  { type := OpType.update, table := "y", data := { id := 2, val := 0 } }

def demoEvents : List QueueEvent :=
  [QueueEvent.enq demoIntent1, QueueEvent.enq demoIntent2, QueueEvent.rem 0]

def demoOp1 : PendingOperation :=
  { id := 1, type := OpType.update, table := "y", data := { id := 2, val := 0 }
    timestamp := 1, retryCount := 0 }

/-- Witness for C2: after enqueuing two operations and removing the first,
dequeue returns the remaining operation, and the next fresh id is unused. -/
theorem operation_queue_contract_witness :
    demoOp1 ∈ (runQueue initialQueueState demoEvents).pending
    ∧ (freshOperation (runQueue initialQueueState demoEvents) demoIntent1).id
        ∉ (runQueue initialQueueState demoEvents).pending.map
            PendingOperation.id
    ∧ (freshOperation (runQueue initialQueueState demoEvents)
        demoIntent1).retryCount = 0 := by
  have h := operation_queue_contract demoEvents demoIntent1
  exact ⟨(h.2.1 demoOp1 (by decide)).1, h.2.2.1, h.2.2.2.2.1⟩

/-! ## Claim C9: remove is a no-op on an absent id, and idempotent -/

/-- Claim C9: removing an id that is not present leaves the queue state
unchanged and raises no error, and removing the same id twice equals
removing it once (for every state and id). -/
theorem remove_absent_idempotent (s : QueueState) (i : Nat)
    (h : i ∉ s.pending.map PendingOperation.id) :
    OperationQueue.remove s i = s
    ∧ ∀ t : QueueState, ∀ j : Nat,
        OperationQueue.remove (OperationQueue.remove t j) j
          = OperationQueue.remove t j := by
  constructor
  · cases s with
    | mk pending nextId now =>
      simp only [OperationQueue.remove, deletePendingOperation,
        QueueState.mk.injEq, and_true, true_and]
      apply List.filter_eq_self.mpr
      intro op hop
      simp only [decide_eq_true_eq]
      intro hid
      exact h (List.mem_map.mpr ⟨op, hop, hid⟩)
  · intro t j
    cases t with
    | mk pending nextId now =>
      simp only [OperationQueue.remove, deletePendingOperation,
        QueueState.mk.injEq, and_true, true_and]
      rw [List.filter_filter]
      congr 1
      funext op
      rw [Bool.and_self]

/-- Concrete state for the C9 witness. -/
def demoQState : QueueState :=
  { pending :=
      [{ id := 3, type := OpType.delete, table := "x"
         data := { id := 3, val := 7 }, timestamp := 2, retryCount := 1 }]
    nextId := 5, now := 9 }

/-- Witness for C9: removing the absent id 99 leaves the state unchanged,
and removing id 3 twice equals removing it once. -/
theorem remove_absent_idempotent_witness :
    OperationQueue.remove demoQState 99 = demoQState
    ∧ OperationQueue.remove (OperationQueue.remove demoQState 3) 3
        = OperationQueue.remove demoQState 3 := by
  have h := remove_absent_idempotent demoQState 99 (by decide)
  exact ⟨h.1, h.2 demoQState 3⟩

/-! ## SyncService (`lib/services/SyncService.ts`) -/

/-- A call against the remote CRUD contract (spec section 6). -/
inductive RemoteCall
  | insert (table : String) (data : Row)
  | update (table : String) (data : Row)
  | delete (table : String) (i : Nat)
deriving DecidableEq

/-- The remote service's behaviour: which calls it acknowledges.  `ok c`
is true when the call succeeds and false when the service reports an
error. -/
structure RemoteEnv where
  ok : RemoteCall → Bool

/-- Modelled from the spec: `BaseService.handleError`
(`lib/services/BaseService.ts` is not in the corpus).  Spec section 7:
queue/sync internals log and convert failures into a requeue or a terminal
drop and do not throw out of the drain loop; so `handleError` logs and
returns normally, which in a pure embedding is the identity effect. -/
def BaseService.handleError : Unit := ()

/-- `SyncService.createRemote`: inserts into the table; a reported error is
thrown and immediately caught, passed to `handleError` and swallowed.  The
embedding returns the attempted call and whether the remote acknowledged
it. -/
def SyncService.createRemote (env : RemoteEnv) (table : String) (data : Row) :
    RemoteCall × Bool :=
  (RemoteCall.insert table data, env.ok (RemoteCall.insert table data))

/-- `SyncService.updateRemote`: updates the row with `data.id`; errors are
swallowed via `handleError` as in `createRemote`. -/
def SyncService.updateRemote (env : RemoteEnv) (table : String) (data : Row) :
    RemoteCall × Bool :=
  (RemoteCall.update table data, env.ok (RemoteCall.update table data))

/-- `SyncService.deleteRemote`: deletes the row with the given id; errors
are swallowed via `handleError` as in `createRemote`. -/
def SyncService.deleteRemote (env : RemoteEnv) (table : String) (i : Nat) :
    RemoteCall × Bool :=
  (RemoteCall.delete table i, env.ok (RemoteCall.delete table i))

/-- The body of `syncToRemote`'s for-loop over the snapshot of pending
operations: dispatch on `op.type` to the matching remote call, then delete
the queue entry; the traversal continues with the remaining snapshot.
Returns the final pending region and the trace of attempted remote calls
with their acknowledgement flags. -/
def syncDrain (env : RemoteEnv) (q : List PendingOperation) :
    List PendingOperation →
      List PendingOperation × List (RemoteCall × Bool)
  | [] => (q, [])
  | op :: rest =>
    let step :=
      match op.type with
      | OpType.create => SyncService.createRemote env op.table op.data
      | OpType.update => SyncService.updateRemote env op.table op.data
      | OpType.delete => SyncService.deleteRemote env op.table op.data.id
    let r := syncDrain env (deletePendingOperation q op.id) rest
    (r.1, step :: r.2)

/-- `SyncService.syncToRemote`: reads the pending operations ordered by
timestamp and drains them. -/
def SyncService.syncToRemote (env : RemoteEnv) (q : List PendingOperation) :
    List PendingOperation × List (RemoteCall × Bool) :=
  syncDrain env q (getPendingOperationsOrderedByTimestamp q)

/-- Statement helper: the remote call `syncToRemote` dispatches for an
operation of each type. -/
def opCall (op : PendingOperation) : RemoteCall :=
  match op.type with
  | OpType.create => RemoteCall.insert op.table op.data
  | OpType.update => RemoteCall.update op.table op.data
  | OpType.delete => RemoteCall.delete op.table op.data.id

theorem syncDrain_trace (env : RemoteEnv) (l q : List PendingOperation) :
    ((syncDrain env q l).2).map Prod.fst = l.map opCall := by
  induction l generalizing q with
  | nil => rfl
  | cons op rest ih =>
    cases htype : op.type <;>
      simp [syncDrain, htype, SyncService.createRemote,
        SyncService.updateRemote, SyncService.deleteRemote, opCall,
        ih (deletePendingOperation q op.id)]

theorem syncDrain_empties (env : RemoteEnv) (l q : List PendingOperation)
    (h : ∀ x ∈ q, x.id ∈ l.map PendingOperation.id) :
    (syncDrain env q l).1 = [] := by
  induction l generalizing q with
  | nil =>
    cases hq : q with
    | nil => rfl
    | cons x xs =>
      exfalso
      have := h x (hq ▸ List.mem_cons_self x xs)
      simp at this
  | cons op rest ih =>
    cases htype : op.type <;>
      · simp only [syncDrain, htype]
        apply ih
        intro x hx
        have hxq : x ∈ q := List.mem_of_mem_filter hx
        have hxid : x.id ≠ op.id := by
          have := List.of_mem_filter hx
          simpa using this
        have := h x hxq
        simp only [List.map_cons, List.mem_cons] at this
        rcases this with heq | hmem
        · exact absurd heq hxid
        · exact hmem

/-! ## Claim C1 (corrected): entries are deleted even when the call fails -/

/-- Counterexample to claim C1: a single queued create whose remote insert
is rejected.  The drain still deletes the queue entry: afterwards the
pending region is empty although the trace records the one attempted
insert as failed, so the operation does not remain in the queue on error. -/
theorem syncToRemote_failed_op_still_deleted :
    (SyncService.syncToRemote { ok := fun _ => false }
      [{ id := 0, type := OpType.create, table := "samples"
         data := { id := 4, val := 9 }, timestamp := 0, retryCount := 0 }]).1
      = []
    ∧ (SyncService.syncToRemote { ok := fun _ => false }
      [{ id := 0, type := OpType.create, table := "samples"
         data := { id := 4, val := 9 }, timestamp := 0, retryCount := 0 }]).2
      = [(RemoteCall.insert "samples" { id := 4, val := 9 }, false)] := by
  constructor <;> rfl

/-- Claim C1 as amended: `syncToRemote` dispatches one remote call per
pending operation in ascending timestamp order and deletes every queue
entry after its call returns, whether or not the remote acknowledged it
(`handleError` swallows the failure), so the drain always leaves the
pending region empty. -/
theorem syncToRemote_deletes_after_call (env : RemoteEnv)
    (q : List PendingOperation) :
    (SyncService.syncToRemote env q).1 = []
    ∧ ((SyncService.syncToRemote env q).2).map Prod.fst
        = (getPendingOperationsOrderedByTimestamp q).map opCall := by
  constructor
  · apply syncDrain_empties
    intro x hx
    exact List.mem_map.mpr
      ⟨x, (mem_ordered x q).mpr hx, rfl⟩
  · exact syncDrain_trace env _ q

/-! ## syncFromRemote and the mirrored local tables (C8) -/

/-- The remote select contract used by `syncFromRemote`: for a table,
organization scope and optional `since` filter, the service returns the
matching rows or an error. -/
structure SelectEnv where
  select : String → String → Option Nat → Except Unit (List Row)

/-- The mirrored local tables of the Local Store: each table name maps to
its list of rows. -/
def LocalDB : Type := String → List Row

/-- The row of a local table with the given primary key, if present. -/
def lookupRow (db : LocalDB) (table : String) (i : Nat) : Option Row :=
  (db table).find? (fun r => decide (r.id = i))

/-- Upsert one row into a table by primary key: replace the rows carrying
its id, or append it when absent. -/
def upsertRow (rows : List Row) (r : Row) : List Row :=
  if rows.any (fun x => decide (x.id = r.id)) then
    rows.map (fun x => if x.id = r.id then r else x)
  else rows ++ [r]

/-- Modelled from the spec: `IndexedDBStorage.bulkSave`
(`lib/storage/IndexedDB.ts` is not in the corpus).  Spec section 4.3:
bulk-writes the result set into the Local Store, fully replacing or
upserting by primary key. -/
def bulkSave (db : LocalDB) (table : String) (rows : List Row) : LocalDB :=
  fun t => if t = table then rows.foldl upsertRow (db t) else db t

/-- `SyncService.syncFromRemote`: queries the remote rows for the table and
organization (optionally restricted to `updated_at > since`); on success
bulk-saves a non-empty result set into the Local Store; an error is
swallowed by `handleError` leaving the store untouched. -/
def SyncService.syncFromRemote (env : SelectEnv) (db : LocalDB)
    (table orgId : String) (since : Option Nat) : LocalDB :=
  match env.select table orgId since with
  | Except.error _ => db
  | Except.ok rows => if 0 < rows.length then bulkSave db table rows else db

theorem find?_map_replace (rows : List Row) (r : Row) (i : Nat)
    (h : r.id ≠ i) :
    List.find? (fun x => decide (x.id = i))
        (rows.map (fun x => if x.id = r.id then r else x))
      = List.find? (fun x => decide (x.id = i)) rows := by
  induction rows with
  | nil => rfl
  | cons y ys ih =>
    simp only [List.map_cons, List.find?_cons]
    by_cases hy : y.id = r.id
    · simp only [if_pos hy]
      have h1 : decide (r.id = i) = false := decide_eq_false h
      have h2 : decide (y.id = i) = false := by
        rw [hy]
        exact decide_eq_false h
      rw [h1, h2, ih]
    · simp only [if_neg hy]
      cases hp : decide (y.id = i)
      · rw [ih]
      · rfl

theorem find?_append_absent (rows : List Row) (r : Row) (i : Nat)
    (h : r.id ≠ i) :
    List.find? (fun x => decide (x.id = i)) (rows ++ [r])
      = List.find? (fun x => decide (x.id = i)) rows := by
  rw [List.find?_append]
  have h1 : List.find? (fun x => decide (x.id = i)) [r] = none := by
    simp only [List.find?, decide_eq_false h]
  rw [h1]
  cases List.find? (fun x => decide (x.id = i)) rows <;> rfl

theorem find?_upsertRow (rows : List Row) (r : Row) (i : Nat)
    (h : r.id ≠ i) :
    (upsertRow rows r).find? (fun x => decide (x.id = i))
      = rows.find? (fun x => decide (x.id = i)) := by
  rw [upsertRow]
  by_cases hany : rows.any (fun x => decide (x.id = r.id))
  · rw [if_pos hany]
    exact find?_map_replace rows r i h
  · rw [if_neg hany]
    exact find?_append_absent rows r i h

theorem find?_foldl_upsert (rows : List Row) (acc : List Row) (i : Nat)
    (h : i ∉ rows.map Row.id) :
    (rows.foldl upsertRow acc).find? (fun x => decide (x.id = i))
      = acc.find? (fun x => decide (x.id = i)) := by
  induction rows generalizing acc with
  | nil => rfl
  | cons r rest ih =>
    simp only [List.map_cons, List.mem_cons] at h
    push_neg at h
    rw [List.foldl_cons, ih _ h.2, find?_upsertRow]
    exact fun heq => h.1 heq.symm

/-! ## Claim C8: syncFromRemote never prunes rows absent from the result -/

/-- Claim C8: when the remote query succeeds with a result set, every local
row of the synced table whose primary key does not occur in that result
set is left unchanged by `syncFromRemote` (remotely deleted rows are not
pruned), and other tables are untouched entirely. -/
theorem syncFromRemote_no_prune (env : SelectEnv) (db : LocalDB)
    (table orgId : String) (since : Option Nat) (rows : List Row)
    (i : Nat) (t : String)
    (hok : env.select table orgId since = Except.ok rows)
    (hid : i ∉ rows.map Row.id)
    (ht : t ≠ table) :
    lookupRow (SyncService.syncFromRemote env db table orgId since) table i
      = lookupRow db table i
    ∧ SyncService.syncFromRemote env db table orgId since t = db t := by
  simp only [SyncService.syncFromRemote, hok]
  by_cases hlen : 0 < rows.length
  · rw [if_pos hlen]
    constructor
    · rw [lookupRow, lookupRow, bulkSave, if_pos rfl]
      exact find?_foldl_upsert rows (db table) i hid
    · rw [bulkSave, if_neg ht]
  · rw [if_neg hlen]
    exact ⟨rfl, rfl⟩

/-- Concrete select environment for the C8 witness: the remote returns one
row with id 4 for table `samples`. -/
def demoSelectEnv : SelectEnv :=
  { select := fun table _ _ =>
      if table = "samples" then Except.ok [{ id := 4, val := 1 }]
      else Except.ok [] }

/-- Concrete local store for the C8 witness: `samples` holds rows 4 and 8,
`sites` holds row 2. -/
def demoLocalDB : LocalDB :=
  fun t =>
    if t = "samples" then [{ id := 4, val := 0 }, { id := 8, val := 5 }]
    else if t = "sites" then [{ id := 2, val := 2 }]
    else []

/-- Witness for C8: after syncing `samples` (remote returns only row 4),
the local row 8 of `samples` and the whole `sites` table are unchanged. -/
theorem syncFromRemote_no_prune_witness :
    lookupRow (SyncService.syncFromRemote demoSelectEnv demoLocalDB
        "samples" "org1" none) "samples" 8
      = lookupRow demoLocalDB "samples" 8
    ∧ SyncService.syncFromRemote demoSelectEnv demoLocalDB
        "samples" "org1" none "sites"
      = demoLocalDB "sites" := by
  exact syncFromRemote_no_prune demoSelectEnv demoLocalDB "samples" "org1"
    none [{ id := 4, val := 1 }] 8 "sites" rfl (by decide) (by decide)

/-! ## Upload queue and uploader (`src/lib/hooks/useStorage.ts`) -/

/-- A file handed to the uploader: a name plus opaque binary content. -/
structure UFile where
  name : String
  content : Nat
deriving DecidableEq

/-- The `UploadTask.status` values of the data model. -/
inductive UploadStatus
  | queued
  | uploading
  | done
  | failed
deriving DecidableEq

/-- `UploadTask` from `lib/utils/uploadQueue`: id, file, path, bucket,
retries, status, progress. -/
structure UploadTask where
  id : Nat
  file : UFile
  path : String
  bucket : String
  retries : Nat
  status : UploadStatus
  progress : Nat
deriving DecidableEq

/-- A call against the remote object-storage contract (spec section 6),
carrying the bucket it addresses. -/
inductive StorageCall
  | list (bucket : String) (path : String)
  | upload (bucket : String) (path : String) (file : UFile)
deriving DecidableEq

/-- The remote object store's behaviour: the result of listing a path in a
bucket, and the result of uploading a file to a path in a bucket. -/
structure StorageEnv where
  listResult : String → String → Except Unit (List String)
  uploadResult : String → String → UFile → Except Unit String

/-- `fileExists` from `useStorage`: lists `path` in the fixed bucket
`processed-data`; a non-empty listing means the file exists; any error is
caught and treated as "file does not exist".  Also returns the remote
calls made. -/
def fileExists (env : StorageEnv) (path : String) :
    Bool × List StorageCall :=
  (match env.listResult "processed-data" path with
   | Except.ok entries => decide (0 < entries.length)
   | Except.error _ => false,
   [StorageCall.list "processed-data" path])

/-- `uploadFile` from `useStorage`: uploads the file to `path` in the given
bucket, returning the stored path or propagating the error.  Also returns
the remote calls made. -/
def uploadFile (env : StorageEnv) (file : UFile) (path bucket : String) :
    Except Unit String × List StorageCall :=
  (env.uploadResult bucket path file,
   [StorageCall.upload bucket path file])

/-- Modelled from the spec: `addToQueue` of `lib/utils/uploadQueue`
(not in the corpus).  Persists a task at the end of the upload queue. -/
def addToQueue (q : List UploadTask) (t : UploadTask) : List UploadTask :=
  q ++ [t]

/-- Modelled from the spec: `getAllQueuedUploads` of
`lib/utils/uploadQueue` (not in the corpus).  Returns the queued tasks. -/
def getAllQueuedUploads (q : List UploadTask) : List UploadTask :=
  q

/-- Modelled from the spec: `removeFromQueue` of `lib/utils/uploadQueue`
(not in the corpus).  Deletes the task with the given id. -/
def removeFromQueue (q : List UploadTask) (i : Nat) : List UploadTask :=
  q.filter (fun t => decide (t.id ≠ i))

/-- Modelled from the spec: `updateQueueItem` of `lib/utils/uploadQueue`
(not in the corpus).  Replaces the stored task carrying the given task's
id. -/
def updateQueueItem (q : List UploadTask) (t : UploadTask) :
    List UploadTask :=
  q.map (fun x => if x.id = t.id then t else x)

/-- A user-visible snackbar notification emitted by the upload paths. -/
inductive Notice
  | alreadyExists (name : String)
  | uploaded (name : String)
  | retrying (name : String) (attempt : Nat)
  | maxRetriesExceeded (name : String)
  | queuedOffline (name : String)
  | queuedOnlineFailure (name : String)
deriving DecidableEq

/-- The effect of one iteration of `processUploadQueue`'s loop on one
snapshot task: the updated queue, the remote calls made and the
notifications emitted. -/
structure StepResult where
  queue : List UploadTask
  trace : List StorageCall
  notices : List Notice

/-- One iteration of `processUploadQueue`'s for-loop: re-check existence
(removing the task when the file is already present), otherwise attempt
the upload; on success remove the task, on failure re-queue it with
`retries + 1` while `retries < 3` and otherwise drop it with a terminal
failure notification. -/
def processOneTask (env : StorageEnv) (q : List UploadTask)
    (t : UploadTask) : StepResult :=
  let ex := fileExists env t.path
  if ex.1 then
    { queue := removeFromQueue q t.id
      trace := ex.2
      notices := [Notice.alreadyExists t.file.name] }
  else
    let up := uploadFile env t.file t.path t.bucket
    match up.1 with
    | Except.ok _ =>
      { queue := removeFromQueue q t.id
        trace := ex.2 ++ up.2
        notices := [Notice.uploaded t.file.name] }
    | Except.error _ =>
      if t.retries < 3 then
        { queue := updateQueueItem q { t with retries := t.retries + 1 }
          trace := ex.2 ++ up.2
          notices := [Notice.retrying t.file.name (t.retries + 1)] }
      else
        { queue := removeFromQueue q t.id
          trace := ex.2 ++ up.2
          notices := [Notice.maxRetriesExceeded t.file.name] }

/-- The result of draining the upload queue: the final queue, the remote
calls made, the notifications emitted, and the ids of the snapshot tasks
the loop processed, in order. -/
structure UploadDrainResult where
  queue : List UploadTask
  trace : List StorageCall
  notices : List Notice
  processed : List Nat

/-- `processUploadQueue`'s loop over the snapshot of queued tasks. -/
def uploadDrain (env : StorageEnv) (q : List UploadTask) :
    List UploadTask → UploadDrainResult
  | [] => { queue := q, trace := [], notices := [], processed := [] }
  | t :: rest =>
    let s := processOneTask env q t
    let r := uploadDrain env s.queue rest
    { queue := r.queue
      trace := s.trace ++ r.trace
      notices := s.notices ++ r.notices
      processed := t.id :: r.processed }

/-- `processUploadQueue` from `useStorage`: returns immediately when
offline, otherwise drains the snapshot of all queued uploads. -/
def processUploadQueue (env : StorageEnv) (isOnline : Bool)
    (q : List UploadTask) : UploadDrainResult :=
  if isOnline then uploadDrain env q (getAllQueuedUploads q)
  else { queue := q, trace := [], notices := [], processed := [] }

/-- The result of `uploadFiles`: the returned destination paths, the final
upload queue, the remote calls made, the notifications emitted and the
next fresh task id. -/
structure UploadFilesResult where
  paths : List String
  queue : List UploadTask
  trace : List StorageCall
  notices : List Notice
  nextId : Nat

/-- The loop of `uploadFiles` over the submitted files.  Per file the
destination is `basePath/file.name`; online, an existing file is skipped,
otherwise the upload is attempted and a failure enqueues a fresh task
(retries 0, status queued) and continues; offline, every file is enqueued
unconditionally with no remote call.  The path is returned in every
branch.  `uuidv4()` is modelled as the fresh counter `n`. -/
def uploadFilesGo (env : StorageEnv) (isOnline : Bool)
    (basePath bucket : String) :
    List UFile → List UploadTask → Nat → UploadFilesResult
  | [], q, n =>
    { paths := [], queue := q, trace := [], notices := [], nextId := n }
  | f :: rest, q, n =>
    let path := basePath ++ "/" ++ f.name
    if isOnline then
      let ex := fileExists env path
      if ex.1 then
        let r := uploadFilesGo env isOnline basePath bucket rest q n
        { paths := path :: r.paths
          queue := r.queue
          trace := ex.2 ++ r.trace
          notices := Notice.alreadyExists f.name :: r.notices
          nextId := r.nextId }
      else
        let up := uploadFile env f path bucket
        match up.1 with
        | Except.ok _ =>
          let r := uploadFilesGo env isOnline basePath bucket rest q n
          { paths := path :: r.paths
            queue := r.queue
            trace := ex.2 ++ up.2 ++ r.trace
            notices := r.notices
            nextId := r.nextId }
        | Except.error _ =>
          let t : UploadTask :=
            { id := n, file := f, path := path, bucket := bucket
              retries := 0, status := UploadStatus.queued, progress := 0 }
          let r := uploadFilesGo env isOnline basePath bucket rest
            (addToQueue q t) (n + 1)
          { paths := path :: r.paths
            queue := r.queue
            trace := ex.2 ++ up.2 ++ r.trace
            notices := Notice.queuedOnlineFailure f.name :: r.notices
            nextId := r.nextId }
    else
      let t : UploadTask :=
        { id := n, file := f, path := path, bucket := bucket
          retries := 0, status := UploadStatus.queued, progress := 0 }
      let r := uploadFilesGo env isOnline basePath bucket rest
        (addToQueue q t) (n + 1)
      { paths := path :: r.paths
        queue := r.queue
        trace := r.trace
        notices := Notice.queuedOffline f.name :: r.notices
        nextId := r.nextId }

/-- `uploadFiles` from `useStorage`, entered with the current network
status, the current upload queue and the fresh-id counter. -/
def uploadFiles (env : StorageEnv) (isOnline : Bool) (files : List UFile)
    (basePath bucket : String) (q : List UploadTask) (n : Nat) :
    UploadFilesResult :=
  uploadFilesGo env isOnline basePath bucket files q n

/-- Statement helper: the tasks the offline branch of `uploadFiles`
enqueues for a file list, given the starting fresh-id counter. -/
def offlineTasks (basePath bucket : String) :
    List UFile → Nat → List UploadTask
  | [], _ => []
  | f :: rest, n =>
    { id := n, file := f, path := basePath ++ "/" ++ f.name
      bucket := bucket, retries := 0, status := UploadStatus.queued
      progress := 0 }
      :: offlineTasks basePath bucket rest (n + 1)

theorem uploadFilesGo_offline (env : StorageEnv) (basePath bucket : String)
    (files : List UFile) (q : List UploadTask) (n : Nat) :
    uploadFilesGo env false basePath bucket files q n
      = { paths := files.map (fun f => basePath ++ "/" ++ f.name)
          queue := q ++ offlineTasks basePath bucket files n
          trace := []
          notices := files.map (fun f => Notice.queuedOffline f.name)
          nextId := n + files.length } := by
  induction files generalizing q n with
  | nil => simp [uploadFilesGo, offlineTasks]
  | cons f rest ih =>
    simp only [uploadFilesGo, Bool.false_eq_true, if_false, ih, addToQueue,
      offlineTasks, List.map_cons, List.length_cons,
      UploadFilesResult.mk.injEq, List.append_assoc, List.singleton_append,
      true_and, and_true]
    omega

theorem offlineTasks_length (basePath bucket : String) (files : List UFile)
    (n : Nat) :
    (offlineTasks basePath bucket files n).length = files.length := by
  induction files generalizing n with
  | nil => rfl
  | cons f rest ih => simp [offlineTasks, ih]

theorem offlineTasks_retries (basePath bucket : String) (files : List UFile)
    (n : Nat) :
    (offlineTasks basePath bucket files n).map UploadTask.retries
      = List.replicate files.length 0 := by
  induction files generalizing n with
  | nil => rfl
  | cons f rest ih => simp [offlineTasks, ih, List.replicate_succ]

theorem offlineTasks_status (basePath bucket : String) (files : List UFile)
    (n : Nat) :
    (offlineTasks basePath bucket files n).map UploadTask.status
      = List.replicate files.length UploadStatus.queued := by
  induction files generalizing n with
  | nil => rfl
  | cons f rest ih => simp [offlineTasks, ih, List.replicate_succ]

/-! ## Claim C5: offline submission queues everything, no remote calls -/

/-- Claim C5: offline, `uploadFiles` makes no remote call at all (no
existence check, no upload), appends to the queue exactly one task per
file — each with retries 0 and status queued — and returns the derived
destination path `basePath/file.name` for every file in input order. -/
theorem uploadFiles_offline (env : StorageEnv) (files : List UFile)
    (basePath bucket : String) (q : List UploadTask) (n : Nat) :
    (uploadFiles env false files basePath bucket q n).paths
      = files.map (fun f => basePath ++ "/" ++ f.name)
    ∧ (uploadFiles env false files basePath bucket q n).trace = []
    ∧ (uploadFiles env false files basePath bucket q n).queue
      = q ++ offlineTasks basePath bucket files n
    ∧ (offlineTasks basePath bucket files n).length = files.length
    ∧ (offlineTasks basePath bucket files n).map UploadTask.retries
      = List.replicate files.length 0
    ∧ (offlineTasks basePath bucket files n).map UploadTask.status
      = List.replicate files.length UploadStatus.queued := by
  rw [uploadFiles, uploadFilesGo_offline]
  exact ⟨rfl, rfl, rfl, offlineTasks_length basePath bucket files n,
    offlineTasks_retries basePath bucket files n,
    offlineTasks_status basePath bucket files n⟩

/-! ## Claim C7: a failed existence check reports "does not exist" -/

/-- Claim C7: whenever the remote listing of a path in `processed-data`
fails with an error, `fileExists` returns false, so callers proceed
toward (re-)upload rather than skipping. -/
theorem fileExists_error_false (env : StorageEnv) (path : String)
    (h : env.listResult "processed-data" path = Except.error ()) :
    (fileExists env path).1 = false := by
  simp [fileExists, h]

/-- A remote store whose every call fails, for the C7 witness. -/
def demoErrorEnv : StorageEnv :=
  { listResult := fun _ _ => Except.error ()
    uploadResult := fun _ _ _ => Except.error () }

/-- Witness for C7: with a failing remote, `fileExists` answers false. -/
theorem fileExists_error_false_witness :
    (fileExists demoErrorEnv "org/samples/a.txt").1 = false :=
  fileExists_error_false demoErrorEnv "org/samples/a.txt" rfl

/-! ## Claim C4: both drains process every queued item -/

theorem uploadDrain_processed (env : StorageEnv) (l q : List UploadTask) :
    (uploadDrain env q l).processed = l.map UploadTask.id := by
  induction l generalizing q with
  | nil => rfl
  | cons t rest ih => simp [uploadDrain, ih]

/-- Claim C4: in `syncToRemote` the drain dispatches a remote call for
every snapshot operation in order, and in `processUploadQueue` the drain
processes every snapshot task in order — both for every remote behaviour,
including one that fails every call, so one failing item never prevents
the later items from being processed in the same drain. -/
theorem drains_process_every_item (renv : RemoteEnv)
    (pending : List PendingOperation) (senv : StorageEnv)
    (tasks : List UploadTask) :
    ((SyncService.syncToRemote renv pending).2).map Prod.fst
      = (getPendingOperationsOrderedByTimestamp pending).map opCall
    ∧ (processUploadQueue senv true tasks).processed
      = tasks.map UploadTask.id := by
  constructor
  · exact syncDrain_trace renv _ pending
  · simp only [processUploadQueue, if_true, getAllQueuedUploads]
    exact uploadDrain_processed senv tasks tasks

/-! ## Claim C3: the retry ceiling in processUploadQueue -/

theorem removeFromQueue_absent (q : List UploadTask) (i : Nat) :
    i ∉ (removeFromQueue q i).map UploadTask.id := by
  intro h
  rcases List.mem_map.mp h with ⟨x, hx, hxi⟩
  have hne := List.of_mem_filter hx
  simp only [decide_eq_true_eq] at hne
  exact hne hxi

theorem map_id_updateQueueItem (q : List UploadTask) (t : UploadTask) :
    (updateQueueItem q t).map UploadTask.id = q.map UploadTask.id := by
  rw [updateQueueItem, List.map_map]
  apply List.map_congr_left
  intro y hy
  by_cases hyid : y.id = t.id
  · simp [Function.comp, hyid]
  · simp [Function.comp, hyid]

theorem processOneTask_queue_ids (env : StorageEnv) (q : List UploadTask)
    (t x : UploadTask) (hx : x ∈ (processOneTask env q t).queue) :
    x.id ∈ q.map UploadTask.id := by
  simp only [processOneTask] at hx
  split at hx
  · exact List.mem_map.mpr ⟨x, List.mem_of_mem_filter hx, rfl⟩
  · split at hx
    · exact List.mem_map.mpr ⟨x, List.mem_of_mem_filter hx, rfl⟩
    · split at hx
      · have hmem : x.id ∈ (updateQueueItem q
            { t with retries := t.retries + 1 }).map UploadTask.id :=
          List.mem_map.mpr ⟨x, hx, rfl⟩
        rw [map_id_updateQueueItem] at hmem
        exact hmem
      · exact List.mem_map.mpr ⟨x, List.mem_of_mem_filter hx, rfl⟩

theorem uploadDrain_preserves_absent (env : StorageEnv)
    (l q : List UploadTask) (i : Nat) (h : i ∉ q.map UploadTask.id) :
    i ∉ (uploadDrain env q l).queue.map UploadTask.id := by
  induction l generalizing q with
  | nil => exact h
  | cons t rest ih =>
    apply ih
    intro hmem
    rcases List.mem_map.mp hmem with ⟨x, hx, hxi⟩
    exact h (hxi ▸ processOneTask_queue_ids env q t x hx)

theorem processOneTask_maxRetries (env : StorageEnv) (q : List UploadTask)
    (t : UploadTask) (hret : t.retries = 3)
    (hne : (fileExists env t.path).1 = false)
    (hfail : (uploadFile env t.file t.path t.bucket).1
      = Except.error ()) :
    processOneTask env q t
      = { queue := removeFromQueue q t.id
          trace := [StorageCall.list "processed-data" t.path,
            StorageCall.upload t.bucket t.path t.file]
          notices := [Notice.maxRetriesExceeded t.file.name] } := by
  simp only [processOneTask, hne, Bool.false_eq_true, if_false, hfail,
    hret]
  rfl

/-- A task that has already failed three times, for the C3 theorems. -/
def demoTask3 : UploadTask :=
  { id := 5, file := { name := "f.txt", content := 0 }
    path := "base/f.txt", bucket := "samples", retries := 3
    status := UploadStatus.queued, progress := 0 }

/-- A remote store whose listings are empty and whose uploads all fail,
for the C3 theorems. -/
def demoFailEnv : StorageEnv :=
  { listResult := fun _ _ => Except.ok []
    uploadResult := fun _ _ _ => Except.error () }

/-- Counterexample to claim C3: draining a queue holding one task with
`retries = 3` whose file is absent remotely does attempt the upload once
more — the trace contains the upload call — before dropping the task with
the terminal failure notification; so "does not attempt a 4th upload" is
false of the code. -/
theorem processUploadQueue_attempts_upload_at_retries_three :
    StorageCall.upload "samples" "base/f.txt" { name := "f.txt", content := 0 }
      ∈ (processUploadQueue demoFailEnv true [demoTask3]).trace
    ∧ (processUploadQueue demoFailEnv true [demoTask3]).queue = []
    ∧ Notice.maxRetriesExceeded "f.txt"
      ∈ (processUploadQueue demoFailEnv true [demoTask3]).notices := by
  decide

/-- Claim C3 as amended: for a queued task with `retries = 3` whose file
the existence check does not find, `processUploadQueue` attempts the
upload once more; when that attempt fails it emits the terminal
`maxRetriesExceeded` notification and drops the task — its id is gone
from the final queue, so it is never re-queued for a further retry —
regardless of the other tasks around it in the queue. -/
theorem processUploadQueue_terminal_drop (env : StorageEnv)
    (pre post : List UploadTask) (task : UploadTask)
    (hret : task.retries = 3)
    (hne : (fileExists env task.path).1 = false)
    (hfail : (uploadFile env task.file task.path task.bucket).1
      = Except.error ()) :
    Notice.maxRetriesExceeded task.file.name
      ∈ (processUploadQueue env true (pre ++ task :: post)).notices
    ∧ StorageCall.upload task.bucket task.path task.file
      ∈ (processUploadQueue env true (pre ++ task :: post)).trace
    ∧ task.id
      ∉ ((processUploadQueue env true (pre ++ task :: post)).queue).map
          UploadTask.id := by
  have main : ∀ q : List UploadTask,
      Notice.maxRetriesExceeded task.file.name
        ∈ (uploadDrain env q (pre ++ task :: post)).notices
      ∧ StorageCall.upload task.bucket task.path task.file
        ∈ (uploadDrain env q (pre ++ task :: post)).trace
      ∧ task.id
        ∉ ((uploadDrain env q (pre ++ task :: post)).queue).map
            UploadTask.id := by
    induction pre with
    | nil =>
      intro q
      simp only [List.nil_append, uploadDrain,
        processOneTask_maxRetries env q task hret hne hfail]
      refine ⟨?_, ?_, ?_⟩
      · exact List.mem_append.mpr (Or.inl (List.mem_singleton.mpr rfl))
      · apply List.mem_append.mpr (Or.inl ?_)
        simp
      · exact uploadDrain_preserves_absent env post
          (removeFromQueue q task.id) task.id
          (removeFromQueue_absent q task.id)
    | cons p ps ih =>
      intro q
      simp only [List.cons_append, uploadDrain]
      rcases ih (processOneTask env q p).queue with ⟨h1, h2, h3⟩
      exact ⟨List.mem_append.mpr (Or.inr h1),
        List.mem_append.mpr (Or.inr h2), h3⟩
  simpa only [processUploadQueue, if_true, getAllQueuedUploads]
    using main (pre ++ task :: post)

/-- Witness for the amended C3: the concrete retries-3 task against the
failing remote is attempted, terminally reported and dropped. -/
theorem processUploadQueue_terminal_drop_witness :
    Notice.maxRetriesExceeded "f.txt"
      ∈ (processUploadQueue demoFailEnv true [demoTask3]).notices
    ∧ StorageCall.upload "samples" "base/f.txt"
        { name := "f.txt", content := 0 }
      ∈ (processUploadQueue demoFailEnv true [demoTask3]).trace
    ∧ 5 ∉ ((processUploadQueue demoFailEnv true [demoTask3]).queue).map
        UploadTask.id := by
  exact processUploadQueue_terminal_drop demoFailEnv [] [] demoTask3
    rfl rfl rfl

/-! ## Claim C10: existence checks consult the fixed processed-data bucket -/

/-- Statement helper: the buckets addressed by the listing calls of a
trace, in order. -/
def listBuckets (l : List StorageCall) : List String :=
  l.filterMap (fun c =>
    match c with
    | StorageCall.list b _ => some b
    | StorageCall.upload _ _ _ => none)

/-- Statement helper: the buckets addressed by the upload calls of a
trace, in order. -/
def uploadBuckets (l : List StorageCall) : List String :=
  l.filterMap (fun c =>
    match c with
    | StorageCall.list _ _ => none
    | StorageCall.upload b _ _ => some b)

theorem listBuckets_append (a b : List StorageCall) :
    listBuckets (a ++ b) = listBuckets a ++ listBuckets b := by
  simp [listBuckets, List.filterMap_append]

theorem uploadBuckets_append (a b : List StorageCall) :
    uploadBuckets (a ++ b) = uploadBuckets a ++ uploadBuckets b := by
  simp [uploadBuckets, List.filterMap_append]

theorem processOneTask_listBuckets (env : StorageEnv)
    (q : List UploadTask) (t : UploadTask) :
    listBuckets (processOneTask env q t).trace = ["processed-data"] := by
  simp only [processOneTask]
  split
  · rfl
  · split
    · rfl
    · split
      · rfl
      · rfl

theorem processOneTask_uploadBuckets (env : StorageEnv)
    (q : List UploadTask) (t : UploadTask) :
    uploadBuckets (processOneTask env q t).trace
      = if (fileExists env t.path).1 then [] else [t.bucket] := by
  by_cases hex : (fileExists env t.path).1
  · simp only [processOneTask, hex, if_true]
    rfl
  · simp only [processOneTask, hex, Bool.false_eq_true, if_false]
    split
    · rfl
    · split
      · rfl
      · rfl

theorem uploadDrain_listBuckets (env : StorageEnv)
    (l q : List UploadTask) :
    listBuckets (uploadDrain env q l).trace
      = List.replicate l.length "processed-data" := by
  induction l generalizing q with
  | nil => rfl
  | cons t rest ih =>
    simp only [uploadDrain]
    rw [listBuckets_append, processOneTask_listBuckets, ih,
      List.length_cons, List.replicate_succ]
    rfl

theorem uploadDrain_uploadBuckets (env : StorageEnv)
    (l q : List UploadTask) :
    uploadBuckets (uploadDrain env q l).trace
      = (l.filter (fun t => !(fileExists env t.path).1)).map
          UploadTask.bucket := by
  induction l generalizing q with
  | nil => rfl
  | cons t rest ih =>
    simp only [uploadDrain]
    rw [uploadBuckets_append, processOneTask_uploadBuckets, ih,
      List.filter_cons]
    by_cases hex : (fileExists env t.path).1
    · simp [hex]
    · simp [hex]

theorem uploadFilesGo_listBuckets (env : StorageEnv)
    (basePath bucket : String) (files : List UFile)
    (q : List UploadTask) (n : Nat) :
    listBuckets (uploadFilesGo env true basePath bucket files q n).trace
      = List.replicate files.length "processed-data" := by
  induction files generalizing q n with
  | nil => rfl
  | cons f rest ih =>
    simp only [uploadFilesGo, if_true]
    have h1 : listBuckets (fileExists env (basePath ++ "/" ++ f.name)).2
        = ["processed-data"] := rfl
    have h2 : listBuckets
        (uploadFile env f (basePath ++ "/" ++ f.name) bucket).2 = [] := rfl
    by_cases hex : (fileExists env (basePath ++ "/" ++ f.name)).1
    · rw [if_pos hex]
      rw [listBuckets_append, h1, ih, List.length_cons,
        List.replicate_succ]
      rfl
    · rw [if_neg hex]
      split
      · rw [listBuckets_append, listBuckets_append, h1, h2, ih,
          List.length_cons, List.replicate_succ]
        rfl
      · rw [listBuckets_append, listBuckets_append, h1, h2, ih,
          List.length_cons, List.replicate_succ]
        rfl

theorem uploadFilesGo_uploadBuckets (env : StorageEnv)
    (basePath bucket : String) (files : List UFile)
    (q : List UploadTask) (n : Nat) :
    uploadBuckets (uploadFilesGo env true basePath bucket files q n).trace
      = (files.filter
          (fun f => !(fileExists env (basePath ++ "/" ++ f.name)).1)).map
          (fun _ => bucket) := by
  induction files generalizing q n with
  | nil => rfl
  | cons f rest ih =>
    simp only [uploadFilesGo, if_true]
    have h1 : uploadBuckets (fileExists env (basePath ++ "/" ++ f.name)).2
        = [] := rfl
    have h2 : uploadBuckets
        (uploadFile env f (basePath ++ "/" ++ f.name) bucket).2
        = [bucket] := rfl
    by_cases hex : (fileExists env (basePath ++ "/" ++ f.name)).1
    · rw [if_pos hex]
      rw [uploadBuckets_append, h1, ih, List.filter_cons]
      simp [hex]
    · rw [if_neg hex]
      split
      · rw [uploadBuckets_append, uploadBuckets_append, h1, h2, ih,
          List.filter_cons]
        simp [hex]
      · rw [uploadBuckets_append, uploadBuckets_append, h1, h2, ih,
          List.filter_cons]
        simp [hex]

/-- Claim C10: in both the queue drain and direct submission, every
existence check lists its path in the fixed bucket `processed-data` — one
listing per drained task and per submitted file — while every attempted
upload addresses the task's own bucket (resp. the bucket argument); so
the skip/already-uploaded decision for uploads targeting any other bucket
is made against a different namespace than the upload destination. -/
theorem existence_checks_use_processed_data_bucket (env : StorageEnv)
    (tasks : List UploadTask) (files : List UFile)
    (basePath bucket : String) (q : List UploadTask) (n : Nat) :
    listBuckets (processUploadQueue env true tasks).trace
      = List.replicate tasks.length "processed-data"
    ∧ uploadBuckets (processUploadQueue env true tasks).trace
      = (tasks.filter (fun t => !(fileExists env t.path).1)).map
          UploadTask.bucket
    ∧ listBuckets (uploadFiles env true files basePath bucket q n).trace
      = List.replicate files.length "processed-data"
    ∧ uploadBuckets (uploadFiles env true files basePath bucket q n).trace
      = (files.filter
          (fun f => !(fileExists env (basePath ++ "/" ++ f.name)).1)).map
          (fun _ => bucket) := by
  refine ⟨?_, ?_, ?_, ?_⟩
  · simp only [processUploadQueue, if_true, getAllQueuedUploads]
    exact uploadDrain_listBuckets env tasks tasks
  · simp only [processUploadQueue, if_true, getAllQueuedUploads]
    exact uploadDrain_uploadBuckets env tasks tasks
  · exact uploadFilesGo_listBuckets env basePath bucket files q n
  · exact uploadFilesGo_uploadBuckets env basePath bucket files q n

/-! ## AuthService (`lib/services/AuthService.ts`) -/

/-- A remote session, abstracted to a token and its expiry. -/
structure Session where
  access_token : Nat
  expires_at : Nat
deriving DecidableEq

/-- The `User` shape built by `getCurrentUser`. -/
structure User where
  id : Nat
  email : String
  last_sign_in_at : Option Nat
deriving DecidableEq

/-- A `UserProfile` row, keyed by the user id. -/
structure UserProfile where
  id : Nat
  organization_id : Option Nat
  user_tier : String
deriving DecidableEq

/-- An `Organization` row, keyed by the organization id. -/
structure Organization where
  id : Nat
  name : String
deriving DecidableEq

/-- The auth region of the Local Store: the session and user singleton
slots and the mirrored profile/organization tables. -/
structure AuthStore where
  session : Option Session
  user : Option User
  user_profiles : List UserProfile
  organizations : List Organization
deriving DecidableEq

/-- Modelled from the spec: `IndexedDBStorage.getSession`
(`lib/storage/IndexedDB.ts` is not in the corpus): reads the session
singleton slot. -/
def storageGetSession (s : AuthStore) : Option Session :=
  s.session

/-- Modelled from the spec: `IndexedDBStorage.saveSession`: overwrites the
session singleton slot. -/
def storageSaveSession (s : AuthStore) (x : Session) : AuthStore :=
  { s with session := some x }

/-- Modelled from the spec: `IndexedDBStorage.getUser`: reads the user
singleton slot. -/
def storageGetUser (s : AuthStore) : Option User :=
  s.user

/-- Modelled from the spec: `IndexedDBStorage.saveUser`: overwrites the
user singleton slot. -/
def storageSaveUser (s : AuthStore) (u : User) : AuthStore :=
  { s with user := some u }

/-- Modelled from the spec: `IndexedDBStorage.getUserProfile`: reads the
mirrored profile with the given user id. -/
def storageGetUserProfile (s : AuthStore) (i : Nat) : Option UserProfile :=
  s.user_profiles.find? (fun p => decide (p.id = i))

/-- Modelled from the spec: `IndexedDBStorage.saveUserProfile`: mirrors
the profile locally, replacing any stored profile with its id. -/
def storageSaveUserProfile (s : AuthStore) (p : UserProfile) : AuthStore :=
  { s with user_profiles :=
      if s.user_profiles.any (fun x => decide (x.id = p.id)) then
        s.user_profiles.map (fun x => if x.id = p.id then p else x)
      else s.user_profiles ++ [p] }

/-- Modelled from the spec: `IndexedDBStorage.getOrganization`: reads the
mirrored organization with the given id. -/
def storageGetOrganization (s : AuthStore) (i : Nat) : Option Organization :=
  s.organizations.find? (fun g => decide (g.id = i))

/-- Modelled from the spec: `IndexedDBStorage.saveOrganization`: mirrors
the organization locally, replacing any stored organization with its
id. -/
def storageSaveOrganization (s : AuthStore) (g : Organization) : AuthStore :=
  { s with organizations :=
      if s.organizations.any (fun x => decide (x.id = g.id)) then
        s.organizations.map (fun x => if x.id = g.id then g else x)
      else s.organizations ++ [g] }

/-- The remote auth/database service's behaviour for the reads the
Auth/Session Cache performs.  An offline client observes errors. -/
structure AuthRemote where
  session : Except Unit (Option Session)
  user : Except Unit (Option User)
  profile : Nat → Except Unit (Option UserProfile)
  org : Nat → Except Unit (Option Organization)

/-- `AuthService.getSession`: asks the remote for the session first; on
an error or an absent session it falls back to the locally stored session
(or null); a fresh session is saved into the local store and returned. -/
def AuthService.getSession (remote : AuthRemote) (store : AuthStore) :
    Option Session × AuthStore :=
  match remote.session with
  | Except.ok (some s) => (some s, storageSaveSession store s)
  | Except.ok none => (storageGetSession store, store)
  | Except.error _ => (storageGetSession store, store)

/-- `AuthService.getCurrentUser`: asks the remote for the user first; on
an error or an absent user it falls back to the locally stored user (or
null); a fresh user is rebuilt, saved locally and returned. -/
def AuthService.getCurrentUser (remote : AuthRemote) (store : AuthStore) :
    Option User × AuthStore :=
  match remote.user with
  | Except.ok (some u) =>
    (some { id := u.id, email := u.email
            last_sign_in_at := u.last_sign_in_at },
     storageSaveUser store
       { id := u.id, email := u.email
         last_sign_in_at := u.last_sign_in_at })
  | Except.ok none => (storageGetUser store, store)
  | Except.error _ => (storageGetUser store, store)

/-- `AuthService.getUserProfile`: tries the local mirror first and returns
it when present without touching the remote; only on a local miss it
fetches from the remote, saves the fetched profile locally and returns
it, throwing when the remote fails or has no row.  The boolean records
whether a remote fetch was attempted. -/
def AuthService.getUserProfile (remote : AuthRemote) (store : AuthStore)
    (userId : Nat) : Except Unit (UserProfile × AuthStore) × Bool :=
  match storageGetUserProfile store userId with
  | some p => (Except.ok (p, store), false)
  | none =>
    match remote.profile userId with
    | Except.ok (some d) =>
      (Except.ok (d, storageSaveUserProfile store d), true)
    | Except.ok none => (Except.error (), true)
    | Except.error _ => (Except.error (), true)

/-- `AuthService.getOrganization`: tries the local mirror first and
returns it when present without touching the remote; only on a local
miss it fetches from the remote, saves it locally and returns it,
throwing when the remote fails or has no row.  The boolean records
whether a remote fetch was attempted. -/
def AuthService.getOrganization (remote : AuthRemote) (store : AuthStore)
    (orgId : Nat) : Except Unit (Organization × AuthStore) × Bool :=
  match storageGetOrganization store orgId with
  | some g => (Except.ok (g, store), false)
  | none =>
    match remote.org orgId with
    | Except.ok (some d) =>
      (Except.ok (d, storageSaveOrganization store d), true)
    | Except.ok none => (Except.error (), true)
    | Except.error _ => (Except.error (), true)

/-! ## Claim C6 (corrected): profile and organization reads are local-first -/

/-- The stale profile stored locally in the C6 counterexample. -/
def demoLocalProfile : UserProfile :=
  { id := 7, organization_id := none, user_tier := "researcher" }

/-- The fresh profile the remote would return in the C6 counterexample. -/
def demoRemoteProfile : UserProfile :=
  { id := 7, organization_id := some 1, user_tier := "lead" }

/-- A local store already holding the stale profile 7. -/
def demoAuthStore : AuthStore :=
  { session := none, user := none
    user_profiles := [demoLocalProfile], organizations := [] }

/-- A healthy remote that would answer profile 7 with fresh data. -/
def demoAuthRemote : AuthRemote :=
  { session := Except.ok none
    user := Except.ok none
    profile := fun i =>
      if i = 7 then Except.ok (some demoRemoteProfile) else Except.ok none
    org := fun _ => Except.ok none }

/-- Counterexample to claim C6: with a local mirror present and a healthy
remote holding different data, `getUserProfile` performs no remote fetch
at all (the attempt flag is false), returns the stale local profile and
leaves the store unchanged — the profile read is local-first, not
remote-first. -/
theorem getUserProfile_is_local_first :
    (AuthService.getUserProfile demoAuthRemote demoAuthStore 7).2 = false
    ∧ (AuthService.getUserProfile demoAuthRemote demoAuthStore 7).1
      = Except.ok (demoLocalProfile, demoAuthStore)
    ∧ demoAuthRemote.profile 7 = Except.ok (some demoRemoteProfile)
    ∧ demoLocalProfile ≠ demoRemoteProfile := by
  refine ⟨rfl, rfl, rfl, ?_⟩
  decide

/-- Claim C6 as amended: the session and user reads attempt the remote
first, mirror a successful fetch into the local store and fall back to
the local mirror on remote failure; the profile and organization reads
instead consult the local mirror first and return it without any remote
call when present — the result does not depend on the remote at all —
fetching from the remote and mirroring locally only on a local miss. -/
theorem auth_cache_read_paths (remote remote2 : AuthRemote)
    (store : AuthStore) (uid oid : Nat) (s : Session) (p : UserProfile)
    (g : Organization)
    (hs : remote.session = Except.ok (some s))
    (hu : remote.user = Except.error ())
    (hp : storageGetUserProfile store uid = some p)
    (ho : storageGetOrganization store oid = none)
    (hg : remote.org oid = Except.ok (some g)) :
    AuthService.getSession remote store = (some s, storageSaveSession store s)
    ∧ AuthService.getCurrentUser remote store = (storageGetUser store, store)
    ∧ AuthService.getUserProfile remote store uid
      = (Except.ok (p, store), false)
    ∧ AuthService.getUserProfile remote store uid
      = AuthService.getUserProfile remote2 store uid
    ∧ AuthService.getOrganization remote store oid
      = (Except.ok (g, storageSaveOrganization store g), true) := by
  refine ⟨?_, ?_, ?_, ?_, ?_⟩
  · rw [AuthService.getSession, hs]
  · rw [AuthService.getCurrentUser, hu]
  · rw [AuthService.getUserProfile, hp]
  · rw [AuthService.getUserProfile, hp, AuthService.getUserProfile, hp]
  · rw [AuthService.getOrganization, ho, hg]

/-- A remote for the C6 witness: the session is fresh, the user endpoint
fails, organization 9 is available. -/
def demoAuthRemote2 : AuthRemote :=
  { session := Except.ok (some { access_token := 11, expires_at := 99 })
    user := Except.error ()
    profile := fun _ => Except.error ()
    org := fun i =>
      if i = 9 then Except.ok (some { id := 9, name := "lab" })
      else Except.ok none }

/-- A second, arbitrary remote showing the profile read ignores the
remote entirely. -/
def demoAuthRemote3 : AuthRemote :=
  { session := Except.error ()
    user := Except.error ()
    profile := fun _ => Except.error ()
    org := fun _ => Except.error () }

/-- Witness for the amended C6, at a store holding profile 7 but no
organization 9, against the concrete remotes. -/
theorem auth_cache_read_paths_witness :
    AuthService.getSession demoAuthRemote2 demoAuthStore
      = (some { access_token := 11, expires_at := 99 },
         storageSaveSession demoAuthStore
           { access_token := 11, expires_at := 99 })
    ∧ AuthService.getCurrentUser demoAuthRemote2 demoAuthStore
      = (storageGetUser demoAuthStore, demoAuthStore)
    ∧ AuthService.getUserProfile demoAuthRemote2 demoAuthStore 7
      = (Except.ok (demoLocalProfile, demoAuthStore), false)
    ∧ AuthService.getUserProfile demoAuthRemote2 demoAuthStore 7
      = AuthService.getUserProfile demoAuthRemote3 demoAuthStore 7
    ∧ AuthService.getOrganization demoAuthRemote2 demoAuthStore 9
      = (Except.ok ({ id := 9, name := "lab" },
          storageSaveOrganization demoAuthStore { id := 9, name := "lab" }),
         true) := by
  exact auth_cache_read_paths demoAuthRemote2 demoAuthRemote3 demoAuthStore
    7 9 { access_token := 11, expires_at := 99 } demoLocalProfile
    { id := 9, name := "lab" } rfl rfl rfl rfl rfl
